import Mathlib

/-!
Verification of the data-normalization and cross-year cohort analytics engine
of the health-records dashboard (sources: `src/lib/supabase.ts`,
`src/lib/data-normalization.ts`, `src/pages/Drinking.tsx`,
`src/pages/Smoking.tsx`, `scripts/import-data.ts`).

JavaScript values flowing through the pipeline (cell values of a raw row)
are modelled by the `Value` type below; machine floating-point numbers are
modelled by exact rationals (the properties at stake — which branch of the
code runs, and whether a failed parse yields the null sentinel — do not
depend on rounding).
-/

/-- A JavaScript value as it appears in a raw data row: `null`, `undefined`,
a boolean, a string, or a number (modelled as an exact rational). -/
inductive Value where
  | vNull
  | vUndef
  | vBool (b : Bool)
  | vStr  (s : String)
  | vNum  (q : ℚ)
deriving DecidableEq

/-- Rendering of a number by JavaScript `String(...)`: integers print as
their decimal digits (the case that matters for the flag vocabulary tests,
e.g. `String(0) = "0"`); for non-integral rationals we use a
numerator-slash-denominator rendering as an abstraction of the JS decimal
rendering — no theorem below depends on its exact spelling, only on the
function being total. -/
def jsNumToString (q : ℚ) : String :=
  if q.den = 1 then toString q.num
  else toString q.num ++ "/" ++ toString q.den

/-- JavaScript `String(value)` conversion. -/
def jsToString : Value → String
  | .vNull => "null"
  | .vUndef => "undefined"
  | .vBool b => if b then "true" else "false"
  | .vStr s => s
  | .vNum q => jsNumToString q

/-- A character the JS `String.prototype.trim` removes: the ASCII
whitespace characters plus NBSP (the Unicode space separators beyond these
do not occur in the datasets and are omitted). -/
def jsWhitespace (c : Char) : Bool :=
  c == ' ' || c == '\t' || c == '\n' || c == '\r' ||
  c == Char.ofNat 0x0b || c == Char.ofNat 0x0c || c == Char.ofNat 0xa0

/-- Model of JS `s.trim()`: drop the whitespace from both ends. -/
def jsTrim (s : String) : String :=
  ⟨((s.data.dropWhile jsWhitespace).reverse.dropWhile jsWhitespace).reverse⟩

/-- Model of JS `s.startsWith(pat)`. -/
def jsStartsWith (s pat : String) : Bool :=
  pat.data.isPrefixOf s.data

/-- Model of JS `String.prototype.toLowerCase` on one character: ASCII
upper-case letters map to lower case (the only case arising from the falsy
vocabulary comparison; non-ASCII lowercasing cannot produce an ASCII falsy
word and is omitted). -/
def jsToLowerChar (c : Char) : Char :=
  if 65 ≤ c.toNat ∧ c.toNat ≤ 90 then Char.ofNat (c.toNat + 32) else c

/-- Model of JS `s.toLowerCase()`. -/
def jsToLowerCase (s : String) : String :=
  ⟨s.data.map jsToLowerChar⟩

/-- The fixed falsy vocabulary of `toBooleanFlag`
(`const falsy = ['false', 'no', '0', '-', 'n/a', 'none']`). -/
def falsyVocab : List String := ["false", "no", "0", "-", "n/a", "none"]

/-- `toBooleanFlag` from `src/lib/data-normalization.ts`:

```
function toBooleanFlag(value: any): boolean {
  if (value === null || value === undefined || value === '') return false;
  if (typeof value === 'boolean') return value;
  if (value === 'ü') return true;
  const s = String(value).trim();
  if (s.startsWith('ไม่')) return false;
  const falsy = ['false', 'no', '0', '-', 'n/a', 'none'];
  return s.length > 0 && !falsy.includes(s.toLowerCase());
}
```

-/
def toBooleanFlag (value : Value) : Bool :=
  if value = .vNull ∨ value = .vUndef ∨ value = .vStr "" then false
  else match value with
  | .vBool b => b
  | _ =>
    if value = .vStr "ü" then true
    else
      let s := jsTrim (jsToString value)
      if jsStartsWith s "ไม่" then false
      else s.length > 0 && !(falsyVocab.contains (jsToLowerCase s))

/-- The string-level flag rules exactly as the claim words them (rules 4–6
applied to the string itself, with no trimming): Thai negation prefix →
false, case-insensitive falsy vocabulary → false, any other non-empty
string → true. -/
def claimFlagRule (value : Value) : Bool :=
  match value with
  | .vNull => false
  | .vUndef => false
  | .vBool b => b
  | .vStr s =>
    if s = "" then false
    else if s = "ü" then true
    else if jsStartsWith s "ไม่" then false
    else if falsyVocab.contains (jsToLowerCase s) then false
    else true
  | .vNum q =>
    let s := jsNumToString q
    if s = "ü" then true
    else if jsStartsWith s "ไม่" then false
    else if falsyVocab.contains (jsToLowerCase s) then false
    else true

/-- The tail of the amended flag rules, on the already-trimmed string:
Thai negation prefix → false; empty (i.e. the original string was all
whitespace) → false; case-insensitively in the falsy vocabulary → false;
otherwise → true. -/
def specFlagTail (t : String) : Bool :=
  if jsStartsWith t "ไม่" then false
  else if t = "" then false
  else if falsyVocab.contains (jsToLowerCase t) then false
  else true

/-- The flag-coercion rule as the claim words it, amended only in that rules
4–6 are applied to the whitespace-trimmed string (so a string that trims to
empty yields `false`, and the negation-prefix/falsy-vocabulary tests see the
trimmed string): null/undefined/empty string → false; a boolean passes
through; `"ü"` → true (subsumed by the final rule); then `specFlagTail` on
the trimmed string. Non-string primitives are first converted by
`String(...)` as in the source. -/
def specFlagRule (value : Value) : Bool :=
  match value with
  | .vNull => false
  | .vUndef => false
  | .vBool b => b
  | .vStr s => if s = "" then false else specFlagTail (jsTrim s)
  | .vNum q => specFlagTail (jsTrim (jsNumToString q))

example : toBooleanFlag (.vStr "ไม่สูบ") = false := by decide
example : toBooleanFlag (.vStr "ü") = true := by decide
example : toBooleanFlag (.vStr "") = false := by decide
example : toBooleanFlag (.vStr " no ") = false := by decide
example : toBooleanFlag (.vStr "N/A") = false := by decide
example : toBooleanFlag (.vStr "drinks daily") = true := by decide
example : toBooleanFlag (.vNum 0) = false := by decide
example : toBooleanFlag (.vNum 2) = true := by decide

lemma length_pos_of_ne_empty {s : String} (h : s ≠ "") : 0 < s.length := by
  cases s with
  | mk data =>
    cases data with
    | nil => exact absurd rfl h
    | cons c cs => simp [String.length]

/-- C5. The claim's literal rule 6 — "any other non-empty string → true" —
fails on the code: `" no "` is a non-empty string, does not begin with
`"ไม่"`, and is not case-insensitively equal to any falsy-vocabulary word,
yet `toBooleanFlag` returns `false` for it (the code trims the string
before applying the last three rules). -/
theorem toBooleanFlag_claim_counterexample :
    claimFlagRule (.vStr " no ") = true ∧ toBooleanFlag (.vStr " no ") = false := by
  decide

/-- C5 (amended). The lifestyle-flag coercion is total — it returns a
`Bool` for every null/undefined/boolean/string/number input — and follows
the claimed priority rules with the one correction that rules 4–6 are
applied to the whitespace-trimmed string: null/undefined/empty string →
false; a boolean passes through; `"ü"` → true; trimmed string beginning
with `"ไม่"` → false; trimmed string equal case-insensitively to a falsy
word → false; any string whose trimmed form is otherwise non-empty → true
(a whitespace-only string therefore coerces to false). -/
theorem toBooleanFlag_follows_amended_rules (v : Value) :
    toBooleanFlag v = specFlagRule v := by
  have tail : ∀ t : String,
      (if jsStartsWith t "ไม่" then false
       else t.length > 0 && !(falsyVocab.contains (jsToLowerCase t))) = specFlagTail t := by
    intro t
    by_cases h1 : jsStartsWith t "ไม่" = true
    · simp [specFlagTail, h1]
    · simp only [Bool.not_eq_true] at h1
      by_cases h2 : t = ""
      · subst h2; decide
      · have hlen : 0 < t.length := length_pos_of_ne_empty h2
        simp only [specFlagTail, h1, h2, Bool.false_eq_true, if_false, hlen,
          decide_eq_true_eq, gt_iff_lt, decide_eq_true, Bool.true_and]
        cases falsyVocab.contains (jsToLowerCase t) <;> simp
  cases v with
  | vNull => rfl
  | vUndef => rfl
  | vBool b => rfl
  | vNum q => exact tail (jsTrim (jsNumToString q))
  | vStr s =>
    by_cases h : s = ""
    · subst h; rfl
    · by_cases hu : s = "ü"
      · subst hu; decide
      · have lhs : toBooleanFlag (.vStr s)
            = (if jsStartsWith (jsTrim s) "ไม่" then false
               else (jsTrim s).length > 0
                 && !(falsyVocab.contains (jsToLowerCase (jsTrim s)))) := by
          simp [toBooleanFlag, h, hu, jsToString]
        rw [lhs, tail (jsTrim s)]
        simp [specFlagRule, h]

/-- C5 witness-style check on a concrete run of the amended rules. -/
example : specFlagRule (.vStr " no ") = false ∧ specFlagRule (.vStr "Yes") = true := by
  decide

/-- The raw-column → canonical-field lookup table `THAI_TO_ENGLISH_MAP`
from `src/lib/data-normalization.ts`, as an association list in source
order (the object literal's keys are pairwise distinct, so first-match
lookup coincides with JS property lookup). -/
def THAI_TO_ENGLISH_MAP : List (String × String) := [
  ("HN", "hn"),
  ("รหัส", "employee_id"),
  ("ชื่อ - นามสกุล", "full_name"),
  ("ชื่อ-นามสกุล", "full_name"),
  ("ชื่อ - นามสกุล (ไทย)", "full_name"),
  ("ชื่อ - นามสกุล (ENG)", "full_name_eng"),
  ("แผนก", "department"),
  ("ตำแหน่ง", "position"),
  ("สาขา", "branch"),
  ("โรงงาน", "factory"),
  ("Function", "function"),
  ("Sub-Function", "sub_function"),
  ("Category", "category"),
  ("Sub-Category", "sub_category"),
  ("Group", "group"),
  ("Age", "age"),
  ("Year of Service", "year_of_service"),
  ("M or F", "gender"),
  ("Year", "year"),
  ("สังกัด SVP", "svp_group"),
  ("VP", "vp"),
  ("วันที่ลาออก", "resignation_date"),
  ("BP-H", "bp_high"),
  ("BP-L", "bp_low"),
  ("น้ำหนัก", "weight"),
  ("ส่วนสูง", "height"),
  ("BMI", "bmi"),
  ("SMOKE", "smoke"),
  ("DRINK", "drink"),
  ("สรุปผลความดัน", "bp_result"),
  ("ผลการตรวจ", "overall_result"),
  ("ตรวจโรคหอบหืดภูมิแพ้", "asthma_allergy"),
  ("Complete Blood Count", "cbc_result"),
  ("Urine Analysis", "ua_result"),
  ("FBS 70-110 mg%", "fbs"),
  ("Cholesterol 0-200 mg%", "cholesterol"),
  ("Triglyceride 30-150  mg%", "triglyceride"),
  ("Triglyceride 30-150 mg%", "triglyceride"),
  ("HDL  >35 mg/dl", "hdl"),
  ("HDL >35 mg/dl", "hdl"),
  ("LDL <=130 mg/dl", "ldl"),
  ("Uric Acid 2.4-7.0 mg%", "uric_acid"),
  ("B.U.N 5-25 mg%", "bun"),
  ("B.U.N", "bun"),
  ("Creatinine 0.7-1.5 mg%", "creatinine"),
  ("Creatinine", "creatinine"),
  ("SGOT 5-40 U/L", "sgot"),
  ("SGOT", "sgot"),
  ("SGPT 5-40 U/L", "sgpt"),
  ("SGPT", "sgpt"),
  ("HBs Ag (Negative)", "hbs_ag"),
  ("HBs Ag", "hbs_ag"),
  ("HBs Ab (Negative)", "hbs_ab"),
  ("HBs Ab", "hbs_ab"),
  ("HAV lgM (Negative)", "hav_igm"),
  ("Anti HAV (Negative)", "anti_hav"),
  ("PSA 0 - 4 ng/ml", "psa"),
  ("Lead in Blood < 60 ug/dl", "lead_in_blood"),
  ("2,5 Hexanedion in Urine < 0.5 mg/L", "hexanedione"),
  ("Methyl Ethyl Ketone in Urine < 2 mg/L", "mek"),
  ("Methanal in Urine < 15 mg/L", "methanal"),
  ("Stool Examintion                          (Parasit Not Found)", "stool_exam"),
  ("Stool Culture (Not-Growth)", "stool_culture"),
  ("Amphetamine (Negative)", "amphetamine"),
  ("เอ็กซเรย์ทรวงอก", "chest_xray"),
  ("ตรวจโครงสร้างกระดูกสั", "bone_structure"),
  ("สมรรถภาพการได้ยิน", "hearing_test"),
  ("สมรรถภาพความจุปอด", "spirometry"),
  ("สมรรถภาพสายตาอาชีวอนา", "vision_occupational"),
  ("สมรรถภาพสายตาอาชีวอนามัย", "vision_occupational"),
  ("คลื่นไฟฟ้าหัวใจ", "ekg"),
  ("ความผิดปกติของหัวใจและหลอดเลือด - ความดัน", "cardiovascular_issues"),
  ("กลุ่มประสาทและสมอง", "neurological_issues"),
  ("ทานยานอนหลับ", "sleeping_pills"),
  ("โรคติดต่อ", "infectious_disease"),
  ("กลุ่มโรคเบาหวานที่ต้องฉีดอินซูลีน", "insulin_diabetes"),
  ("แบบทดสอบวัดระดับความง่วงนอนกลางวัน (คะแนน)", "sleepiness_score"),
  ("แบบทดสอบวัดระดับความง่วงนอนกลางวัน", "sleepiness_result"),
  ("แบบทดสอบการนอนหลับ (คะแนน)", "sleep_test_score"),
  ("ความผิดปกติของการนอนหลับ", "sleep_disorder_result"),
  ("แบบทดสอบสภาพด้านจิต (คะแนน)", "mental_health_score"),
  ("ความผิดปกติทางด้านจิตใจ", "mental_health_result")]

/-- `const englishKey = THAI_TO_ENGLISH_MAP[key] || key` — the mapped
canonical name when the key is in the table (falling back to the key when
the mapped value is falsy, i.e. the empty string — which never happens in
the table above), and the key itself otherwise. -/
def normKey (key : String) : String :=
  match THAI_TO_ENGLISH_MAP.lookup key with
  | some v => if v = "" then key else v
  | none => key

/-- The per-value transformation inside `normalizeData`'s loop:

```
if (englishKey === 'drink' || englishKey === 'smoke') {
  value = toBooleanFlag(value);
} else if (value === 'ü') {
  value = true;
}
```
-/
def transformVal (englishKey : String) (value : Value) : Value :=
  if englishKey = "drink" ∨ englishKey = "smoke" then .vBool (toBooleanFlag value)
  else if value = .vStr "ü" then .vBool true
  else value

/-- A raw row: a key → value mapping in property-enumeration order. -/
abbrev RawRow := List (String × Value)

/-- JS property assignment `normalized[englishKey] = value`: overwrite in
place when the key is already present (keeping its position), append
otherwise. -/
def objInsert (obj : RawRow) (k : String) (v : Value) : RawRow :=
  if obj.any (fun p => p.1 == k) then obj.map (fun p => if p.1 == k then (k, v) else p)
  else obj ++ [(k, v)]

/-- One iteration of `Object.keys(item).forEach(...)` inside
`normalizeData`. -/
def normStep (normalized : RawRow) (kv : String × Value) : RawRow :=
  objInsert normalized (normKey kv.1) (transformVal (normKey kv.1) kv.2)

/-- The body of `normalizeData`'s `data.map(item => ...)`: build the
`normalized` object by folding over the item's keys in order. -/
def normalizeRecord (item : RawRow) : RawRow :=
  item.foldl normStep []

/-- `normalizeData` from `src/lib/data-normalization.ts` (the
`!data || !Array.isArray(data)` guard is vacuous for a `List`). -/
def normalizeData (data : List RawRow) : List RawRow :=
  data.map normalizeRecord

example : normKey "สาขา" = "branch" := by decide
example : normKey "unknown column" = "unknown column" := by decide
example : normalizeRecord [("DRINK", .vStr "ไม่ดื่ม"), ("BMI", .vStr "22.5")]
    = [("drink", .vBool false), ("bmi", .vStr "22.5")] := by decide
example : normalizeRecord [("สาขา", .vStr "ü")] = [("branch", .vBool true)] := by decide

lemma mem_of_lookup_eq_some {k v : String} :
    ∀ {l : List (String × String)}, l.lookup k = some v → (k, v) ∈ l := by
  intro l
  induction l with
  | nil => simp [List.lookup]
  | cons p t ih =>
    intro h
    rw [List.lookup] at h
    by_cases hk : k == p.1
    · simp only [hk, if_pos] at h
      rcases p with ⟨pk, pv⟩
      simp only [beq_iff_eq] at hk
      cases h
      exact hk ▸ List.mem_cons_self _ _
    · simp only [Bool.not_eq_true] at hk
      rw [hk] at h
      exact List.mem_cons_of_mem _ (ih h)

lemma map_values_ne_empty : ∀ p ∈ THAI_TO_ENGLISH_MAP, p.2 ≠ "" := by decide

/-- C7. Key resolution substitutes the mapped canonical name when the key
is in the lookup table and passes the key through unchanged otherwise
(`lookup.getD` is exactly that rule), and both the double-space and the
single-space Triglyceride spellings map to the canonical field
`triglyceride` — also at the level of whole-record normalization. -/
theorem normKey_resolution :
    (∀ k, normKey k = (THAI_TO_ENGLISH_MAP.lookup k).getD k)
  ∧ normKey "Triglyceride 30-150  mg%" = "triglyceride"
  ∧ normKey "Triglyceride 30-150 mg%" = "triglyceride"
  ∧ normalizeRecord [("Triglyceride 30-150  mg%", .vStr "120")] = [("triglyceride", .vStr "120")]
  ∧ normalizeRecord [("Triglyceride 30-150 mg%", .vStr "95")] = [("triglyceride", .vStr "95")] := by
  refine ⟨?_, by decide, by decide, by decide, by decide⟩
  intro k
  unfold normKey
  cases h : THAI_TO_ENGLISH_MAP.lookup k with
  | none => rfl
  | some v =>
    have hv : v ≠ "" := map_values_ne_empty _ (mem_of_lookup_eq_some h)
    simp [hv]

/-- C8. Normalization is order- and length-preserving: it is a per-record
map, so it emits exactly one output record per input record, in the same
positions — no record is dropped, merged, or duplicated (also for a record
with zero recognized keys, which the last conjunct exhibits). -/
theorem normalizeData_complete (data : List RawRow) :
    (normalizeData data).length = data.length
  ∧ (∀ i : ℕ, (normalizeData data)[i]? = (data[i]?).map normalizeRecord)
  ∧ normalizeData [[("mystery column", .vStr "x")]]
      = [[("mystery column", .vStr "x")]] := by
  refine ⟨by simp [normalizeData], ?_, by decide⟩
  intro i
  simp [normalizeData]

/-- The keys of a row object, in enumeration order. -/
def keysOf (obj : RawRow) : List String := obj.map Prod.fst

/-- Append a key unless it is already present — one insertion into a JS
`Set` (which keeps first-occurrence order). -/
def insertNewLast (ks : List String) (k : String) : List String :=
  if ks.any (fun x => x == k) then ks else ks ++ [k]

/-- `Array.from(new Set(l))`: the distinct elements of `l` in
first-occurrence order. -/
def distinctList (l : List String) : List String := l.foldl insertNewLast []

lemma lookup_none_of_any_false {β : Type} {obj : List (String × β)} {k : String}
    (h : obj.any (fun p => p.1 == k) = false) : obj.lookup k = none := by
  rw [List.any_eq_false] at h
  rw [List.lookup_eq_none_iff]
  intro p hp
  have := h p hp
  rw [Bool.not_eq_true, beq_eq_false_iff_ne] at this
  simpa [bne_iff_ne] using fun e => this e.symm

lemma any_map_fst {β : Type} (obj : List (String × β)) (k : String) :
    ((obj.map Prod.fst).any fun x => x == k) = obj.any fun p => p.1 == k := by
  induction obj with
  | nil => rfl
  | cons p t ih => simp [List.any_cons, ih]

lemma keysOf_objInsert (obj : RawRow) (k : String) (v : Value) :
    keysOf (objInsert obj k v) = insertNewLast (keysOf obj) k := by
  unfold objInsert insertNewLast keysOf
  rw [any_map_fst obj k]
  cases h : obj.any (fun p => p.1 == k) with
  | false => simp [h]
  | true =>
    simp only [h, if_true, List.map_map]
    apply List.map_congr_left
    intro p _
    by_cases hpk : (p.1 == k) = true
    · simp only [Function.comp, hpk, if_true]
      exact (beq_iff_eq.mp hpk).symm
    · rw [Bool.not_eq_true] at hpk
      simp [Function.comp, hpk]

lemma lookup_objInsert_self (obj : RawRow) (k : String) (v : Value) :
    (objInsert obj k v).lookup k = some v := by
  unfold objInsert
  cases h : obj.any (fun p => p.1 == k) with
  | false =>
    simp only [h, Bool.false_eq_true, if_false]
    rw [List.lookup_append, lookup_none_of_any_false h]
    simp
  | true =>
    simp only [h, if_true]
    induction obj with
    | nil => simp at h
    | cons p t ih =>
      rcases p with ⟨pk, pv⟩
      by_cases hpk : pk = k
      · subst hpk
        rw [List.map_cons, if_pos (beq_self_eq_true pk)]
        exact List.lookup_cons_self
      · have hb : (pk == k) = false := beq_eq_false_iff_ne.mpr hpk
        have hb2 : (k == pk) = false := beq_eq_false_iff_ne.mpr fun e => hpk e.symm
        simp only [List.any_cons, hb, Bool.false_or] at h
        rw [List.map_cons, if_neg (by simp [hb])]
        simp only [List.lookup_cons, hb2]
        exact ih h

lemma lookup_objInsert_other (obj : RawRow) (k : String) (v : Value) (K : String)
    (hK : ¬ K = k) :
    (objInsert obj k v).lookup K = obj.lookup K := by
  have hKk : (K == k) = false := beq_eq_false_iff_ne.mpr hK
  unfold objInsert
  cases h : obj.any (fun p => p.1 == k) with
  | false =>
    simp only [h, Bool.false_eq_true, if_false]
    rw [List.lookup_append]
    have : ([(k, v)] : RawRow).lookup K = none := by
      simp [List.lookup_cons, hKk]
    rw [this]
    cases obj.lookup K <;> rfl
  | true =>
    clear h
    simp only [if_true]
    induction obj with
    | nil => rfl
    | cons p t ih =>
      rcases p with ⟨pk, pv⟩
      by_cases hpk : pk = k
      · subst hpk
        rw [List.map_cons, if_pos (beq_self_eq_true pk)]
        simp only [List.lookup_cons, hKk]
        exact ih
      · have hb : (pk == k) = false := beq_eq_false_iff_ne.mpr hpk
        rw [List.map_cons, if_neg (by simp [hb])]
        simp only [List.lookup_cons]
        cases hKpk : (K == pk) with
        | true => rfl
        | false => exact ih

lemma map_values_not_keys :
    ∀ p ∈ THAI_TO_ENGLISH_MAP, THAI_TO_ENGLISH_MAP.lookup p.2 = none := by decide

lemma normKey_idem (k : String) : normKey (normKey k) = normKey k := by
  cases h : THAI_TO_ENGLISH_MAP.lookup k with
  | none =>
    have hk : normKey k = k := by unfold normKey; rw [h]
    rw [hk]
    exact hk
  | some v =>
    have hv : v ≠ "" := map_values_ne_empty _ (mem_of_lookup_eq_some h)
    have hk : normKey k = v := by unfold normKey; rw [h]; simp [hv]
    have hv2 : THAI_TO_ENGLISH_MAP.lookup v = none :=
      map_values_not_keys _ (mem_of_lookup_eq_some h)
    rw [hk]
    unfold normKey
    rw [hv2]

lemma toBooleanFlag_bool (b : Bool) : toBooleanFlag (.vBool b) = b := by
  cases b <;> rfl

lemma transformVal_idem (ek : String) (v : Value) :
    transformVal ek (transformVal ek v) = transformVal ek v := by
  by_cases hek : ek = "drink" ∨ ek = "smoke"
  · simp [transformVal, hek, toBooleanFlag_bool]
  · by_cases hv : v = .vStr "ü"
    · simp [transformVal, hek, hv]
    · simp [transformVal, hek, hv]

/-- A pair already in canonical form: its key is a fixed point of key
resolution and its value a fixed point of the value transformation. -/
def goodPair (p : String × Value) : Prop :=
  normKey p.1 = p.1 ∧ transformVal p.1 p.2 = p.2

lemma goodPair_objInsert {obj : RawRow} {k : String} {v : Value}
    (hobj : ∀ p ∈ obj, goodPair p) (hkv : goodPair (k, v)) :
    ∀ p ∈ objInsert obj k v, goodPair p := by
  intro p hp
  unfold objInsert at hp
  by_cases h : obj.any (fun q => q.1 == k) = true
  · rw [if_pos h] at hp
    rcases List.mem_map.mp hp with ⟨q, hq, rfl⟩
    by_cases hqk : (q.1 == k) = true
    · rw [if_pos hqk]
      exact hkv
    · rw [Bool.not_eq_true] at hqk
      rw [if_neg (by simp [hqk])]
      exact hobj q hq
  · rw [Bool.not_eq_true] at h
    rw [if_neg (by simp [h])] at hp
    rcases List.mem_append.mp hp with hp1 | hp1
    · exact hobj p hp1
    · rcases List.mem_singleton.mp hp1 with rfl
      exact hkv

lemma foldl_normStep_good :
    ∀ (item : RawRow) (acc : RawRow), (∀ p ∈ acc, goodPair p) →
      ∀ p ∈ item.foldl normStep acc, goodPair p := by
  intro item
  induction item with
  | nil => intro acc h; simpa using h
  | cons kv rest ih =>
    intro acc h
    rw [List.foldl_cons]
    apply ih
    apply goodPair_objInsert h
    exact ⟨normKey_idem kv.1, transformVal_idem (normKey kv.1) kv.2⟩

lemma keysOf_foldl_normStep :
    ∀ (item : RawRow) (acc : RawRow),
      keysOf (item.foldl normStep acc)
        = (item.map (fun kv => normKey kv.1)).foldl insertNewLast (keysOf acc) := by
  intro item
  induction item with
  | nil => intro acc; rfl
  | cons kv rest ih =>
    intro acc
    rw [List.foldl_cons, List.map_cons, List.foldl_cons, ih, ← keysOf_objInsert]
    rfl

lemma mem_foldl_insertNewLast :
    ∀ (l ks : List String) (a : String),
      a ∈ l.foldl insertNewLast ks ↔ a ∈ ks ∨ a ∈ l := by
  intro l
  induction l with
  | nil => intro ks a; simp
  | cons x t ih =>
    intro ks a
    rw [List.foldl_cons, ih]
    unfold insertNewLast
    by_cases h : ks.any (fun y => y == x) = true
    · rw [if_pos h]
      have hx : x ∈ ks := by
        rcases List.any_eq_true.mp h with ⟨y, hy, hyx⟩
        exact (beq_iff_eq.mp hyx) ▸ hy
      simp only [List.mem_cons]
      constructor
      · intro h1; tauto
      · rintro (h1 | rfl | h1) <;> tauto
    · rw [Bool.not_eq_true] at h
      rw [if_neg (by simp [h])]
      simp only [List.mem_append, List.mem_singleton, List.mem_cons]
      tauto

lemma nodup_foldl_insertNewLast :
    ∀ (l ks : List String), ks.Nodup → (l.foldl insertNewLast ks).Nodup := by
  intro l
  induction l with
  | nil => intro ks h; simpa using h
  | cons x t ih =>
    intro ks h
    rw [List.foldl_cons]
    apply ih
    unfold insertNewLast
    by_cases hx : ks.any (fun y => y == x) = true
    · rwa [if_pos hx]
    · rw [Bool.not_eq_true] at hx
      rw [if_neg (by simp [hx])]
      have hxk : x ∉ ks := by
        intro hmem
        have := List.any_eq_false.mp hx x hmem
        simp at this
      simp [List.nodup_append, h, hxk]

lemma foldl_normStep_fresh :
    ∀ (obj acc : RawRow), (∀ p ∈ obj, goodPair p) → (keysOf obj).Nodup →
      (∀ p ∈ obj, p.1 ∉ keysOf acc) →
      obj.foldl normStep acc = acc ++ obj := by
  intro obj
  induction obj with
  | nil => intro acc _ _ _; simp
  | cons kv rest ih =>
    intro acc hgood hnd hfresh
    rcases kv with ⟨k0, v0⟩
    have hg := hgood (k0, v0) (List.mem_cons_self _ _)
    have hk0 : k0 ∉ keysOf acc := hfresh (k0, v0) (List.mem_cons_self _ _)
    have hstep : normStep acc (k0, v0) = acc ++ [(k0, v0)] := by
      unfold normStep
      rw [hg.1, hg.2]
      unfold objInsert
      have hany : acc.any (fun p => p.1 == k0) = false := by
        rw [List.any_eq_false]
        intro p hp
        simp only [beq_iff_eq]
        intro e
        exact hk0 (e ▸ List.mem_map_of_mem Prod.fst hp)
      rw [if_neg (by simp [hany])]
    rw [List.foldl_cons, hstep]
    have hndk : k0 ∉ keysOf rest := by
      have := hnd
      unfold keysOf at this
      rw [List.map_cons, List.nodup_cons] at this
      exact this.1
    rw [ih (acc ++ [(k0, v0)]) (fun p hp => hgood p (List.mem_cons_of_mem _ hp))
      (by unfold keysOf at hnd ⊢; rw [List.map_cons, List.nodup_cons] at hnd; exact hnd.2)
      ?_]
    · simp
    · intro p hp
      unfold keysOf
      rw [List.map_append, List.mem_append]
      rintro (h1 | h1)
      · exact hfresh p (List.mem_cons_of_mem _ hp) h1
      · simp only [List.map_cons, List.map_nil, List.mem_singleton] at h1
        exact hndk (h1 ▸ List.mem_map_of_mem Prod.fst hp)

/-- C9. Normalization is idempotent: a second pass over an
already-normalized record set changes nothing — in particular every
already-canonical key is a fixed point of key resolution, and a flag value
that is already boolean is unchanged by the flag coercion. -/
theorem normalizeData_idempotent (data : List RawRow) :
    normalizeData (normalizeData data) = normalizeData data
  ∧ (∀ b, toBooleanFlag (.vBool b) = b)
  ∧ (∀ k, normKey (normKey k) = normKey k) := by
  refine ⟨?_, toBooleanFlag_bool, normKey_idem⟩
  unfold normalizeData
  rw [List.map_map]
  apply List.map_congr_left
  intro item _
  show normalizeRecord (normalizeRecord item) = normalizeRecord item
  have hgood : ∀ p ∈ normalizeRecord item, goodPair p :=
    foldl_normStep_good item [] (by simp)
  have hnd : (keysOf (normalizeRecord item)).Nodup := by
    unfold normalizeRecord
    rw [keysOf_foldl_normStep]
    exact nodup_foldl_insertNewLast _ _ (by simp [keysOf])
  calc normalizeRecord (normalizeRecord item)
      = [] ++ normalizeRecord item :=
        foldl_normStep_fresh (normalizeRecord item) [] hgood hnd (by simp [keysOf])
    _ = normalizeRecord item := by simp

lemma lookup_foldl_normStep (item : RawRow) :
    ∀ (acc : RawRow) (K : String),
      (item.foldl normStep acc).lookup K
        = ((item.filter fun kv => normKey kv.1 == K).getLast?.elim
            (acc.lookup K) fun kv => some (transformVal K kv.2)) := by
  induction item with
  | nil => intro acc K; simp
  | cons kv rest ih =>
    intro acc K
    rw [List.foldl_cons, ih (normStep acc kv) K]
    by_cases hK : (normKey kv.1 == K) = true
    · have hKeq : normKey kv.1 = K := beq_iff_eq.mp hK
      rw [List.filter_cons]
      simp only [hK, if_true]
      rw [List.getLast?_cons]
      cases hfl : (rest.filter fun kv => normKey kv.1 == K).getLast? with
      | none =>
        simp only [hfl, Option.getD_none, Option.elim_none, Option.elim_some]
        show (normStep acc kv).lookup K = _
        unfold normStep
        rw [← hKeq]
        exact lookup_objInsert_self acc (normKey kv.1) (transformVal (normKey kv.1) kv.2)
      | some kv' =>
        simp only [hfl, Option.getD_some, Option.elim_some]
    · have hKne : ¬ K = normKey kv.1 := by
        rw [Bool.not_eq_true, beq_eq_false_iff_ne] at hK
        exact fun e => hK e.symm
      rw [List.filter_cons]
      simp only [Bool.not_eq_true] at hK
      simp only [hK, Bool.false_eq_true, if_false]
      have : (normStep acc kv).lookup K = acc.lookup K := by
        unfold normStep
        exact lookup_objInsert_other acc (normKey kv.1) _ K hKne
      rw [this]

lemma normalizeRecord_length_eq (item : RawRow) :
    (normalizeRecord item).length
      = (distinctList (item.map fun kv => normKey kv.1)).length := by
  have h1 : (normalizeRecord item).length = (keysOf (normalizeRecord item)).length := by
    unfold keysOf
    rw [List.length_map]
  rw [h1]
  unfold normalizeRecord
  rw [keysOf_foldl_normStep]
  rfl

lemma distinctList_length_lt {l : List String} (h : ¬ l.Nodup) :
    (distinctList l).length < l.length := by
  have hnd : (distinctList l).Nodup := nodup_foldl_insertNewLast l [] (by simp)
  have hmem : ∀ a, a ∈ distinctList l ↔ a ∈ l := by
    intro a
    unfold distinctList
    rw [mem_foldl_insertNewLast]
    simp
  have hperm : List.Perm (distinctList l) l.dedup := by
    rw [List.perm_iff_count]
    intro a
    by_cases ha : a ∈ l
    · rw [List.count_eq_one_of_mem hnd ((hmem a).mpr ha),
        List.count_eq_one_of_mem (List.nodup_dedup l) (List.mem_dedup.mpr ha)]
    · rw [List.count_eq_zero_of_not_mem (fun hc => ha ((hmem a).mp hc)),
        List.count_eq_zero_of_not_mem (fun hc => ha (List.mem_dedup.mp hc))]
  rw [hperm.length_eq]
  rcases Nat.lt_or_ge l.dedup.length l.length with hlt | hge
  · exact hlt
  · exact absurd (by rw [← List.dedup_eq_self]; exact (List.dedup_sublist l).eq_of_length_le hge) h

lemma not_nodup_middle {x : String} {l1 l2 l3 : List String} :
    ¬ (l1 ++ x :: (l2 ++ x :: l3)).Nodup := by
  intro h
  have h2 : (x :: (l2 ++ x :: l3)).Nodup := h.of_append_right
  rw [List.nodup_cons] at h2
  exact h2.1 (List.mem_append.mpr (Or.inr (List.mem_cons_self _ _)))

/-- C10. When one input record carries two distinct raw keys that resolve
to the same canonical name, the normalized record has strictly fewer keys
than the input, and the value stored under any canonical name `K` is the
transformed value of the key enumerated last among those resolving to `K`
(last writer wins) — while the record count of the whole dataset is still
preserved. -/
theorem normalizeRecord_collision (item l1 l2 l3 : RawRow)
    (k1 k2 : String) (v1 v2 : Value)
    (hsplit : item = l1 ++ (k1, v1) :: (l2 ++ (k2, v2) :: l3))
    (_hne : k1 ≠ k2) (hcol : normKey k1 = normKey k2) :
    (normalizeRecord item).length < item.length
  ∧ (∀ K, (normalizeRecord item).lookup K
      = ((item.filter fun kv => normKey kv.1 == K).getLast?.elim
          none fun kv => some (transformVal K kv.2)))
  ∧ (∀ rows : List RawRow, (normalizeData rows).length = rows.length) := by
  refine ⟨?_, ?_, fun rows => by simp [normalizeData]⟩
  · have hdup : ¬ (item.map fun kv => normKey kv.1).Nodup := by
      subst hsplit
      simp only [List.map_append, List.map_cons]
      rw [← hcol]
      exact not_nodup_middle
    calc (normalizeRecord item).length
        = (distinctList (item.map fun kv => normKey kv.1)).length :=
          normalizeRecord_length_eq item
      _ < (item.map fun kv => normKey kv.1).length := distinctList_length_lt hdup
      _ = item.length := List.length_map _ _
  · intro K
    have := lookup_foldl_normStep item [] K
    simpa using this

/-- Witness for C10: a record carrying both Triglyceride spellings.
The two raw keys are distinct, both resolve to `triglyceride`, the
normalized record is strictly shorter (one key instead of two), and the
stored value is the one of the later key (`"200"`). -/
theorem normalizeRecord_collision_witness :
    ([("Triglyceride 30-150  mg%", Value.vStr "100"),
      ("Triglyceride 30-150 mg%", Value.vStr "200")] : RawRow)
        = [] ++ ("Triglyceride 30-150  mg%", Value.vStr "100")
            :: ([] ++ ("Triglyceride 30-150 mg%", Value.vStr "200") :: [])
  ∧ "Triglyceride 30-150  mg%" ≠ "Triglyceride 30-150 mg%"
  ∧ normKey "Triglyceride 30-150  mg%" = normKey "Triglyceride 30-150 mg%"
  ∧ ((normalizeRecord [("Triglyceride 30-150  mg%", Value.vStr "100"),
        ("Triglyceride 30-150 mg%", Value.vStr "200")]).length
      < ([("Triglyceride 30-150  mg%", Value.vStr "100"),
          ("Triglyceride 30-150 mg%", Value.vStr "200")] : RawRow).length
    ∧ (∀ K, (normalizeRecord [("Triglyceride 30-150  mg%", Value.vStr "100"),
          ("Triglyceride 30-150 mg%", Value.vStr "200")]).lookup K
        = ((([("Triglyceride 30-150  mg%", Value.vStr "100"),
              ("Triglyceride 30-150 mg%", Value.vStr "200")] : RawRow).filter
                fun kv => normKey kv.1 == K).getLast?.elim
              none fun kv => some (transformVal K kv.2)))
    ∧ (∀ rows : List RawRow, (normalizeData rows).length = rows.length)) :=
  ⟨rfl, by decide, by decide,
    normalizeRecord_collision _ [] [] [] _ _ _ _ rfl (by decide) (by decide)⟩

example : normalizeRecord [("Triglyceride 30-150  mg%", Value.vStr "100"),
    ("Triglyceride 30-150 mg%", Value.vStr "200")]
  = [("triglyceride", Value.vStr "200")] := by decide

/-- A normalized health record, restricted to the fields the cross-year
cohort engine reads (`Drinking.tsx` / `Smoking.tsx`). -/
structure HealthRec where
  employee_id : String
  branch : String
  drink : Bool
  smoke : Bool
deriving DecidableEq

/-- The onset transition cohort, the common shape of `newDrinkers`
(`Drinking.tsx`, `pred = d.drink`) and `newSmokers` (`Smoking.tsx`,
`pred = d.smoke`):

```
data2025.filter(emp25 => {
  const emp24 = data2024.find(e => e.employee_id === emp25.employee_id);
  return emp25.drink && (!emp24 || !emp24.drink);
})
```
-/
def onsetCohort (pred : HealthRec → Bool) (data2024 data2025 : List HealthRec) :
    List HealthRec :=
  data2025.filter fun emp25 =>
    pred emp25 &&
      (match data2024.find? (fun e => e.employee_id == emp25.employee_id) with
       | none => true
       | some emp24 => !pred emp24)

/-- The discontinued transition cohort, the common shape of `quitters` in
`Drinking.tsx` (`pred = d.drink`) and in `Smoking.tsx` (`pred = d.smoke`):

```
data2024.filter(emp24 => {
  const emp25 = data2025.find(e => e.employee_id === emp24.employee_id);
  return emp24.drink && emp25 && !emp25.drink;
})
```
-/
def dropCohort (pred : HealthRec → Bool) (data2024 data2025 : List HealthRec) :
    List HealthRec :=
  data2024.filter fun emp24 =>
    pred emp24 &&
      (match data2025.find? (fun e => e.employee_id == emp24.employee_id) with
       | none => false
       | some emp25 => !pred emp25)

/-- `newDrinkers` of `Drinking.tsx`. -/
def newDrinkers (data2024 data2025 : List HealthRec) : List HealthRec :=
  onsetCohort (fun d => d.drink) data2024 data2025

/-- `quitters` of `Drinking.tsx`. -/
def drinkQuitters (data2024 data2025 : List HealthRec) : List HealthRec :=
  dropCohort (fun d => d.drink) data2024 data2025

/-- `newSmokers` of `Smoking.tsx`. -/
def newSmokers (data2024 data2025 : List HealthRec) : List HealthRec :=
  onsetCohort (fun d => d.smoke) data2024 data2025

/-- `quitters` of `Smoking.tsx`. -/
def smokeQuitters (data2024 data2025 : List HealthRec) : List HealthRec :=
  dropCohort (fun d => d.smoke) data2024 data2025

lemma match_option_all (pred : HealthRec → Bool) (o : Option HealthRec) :
    (match o with
     | none => true
     | some e => !pred e) = o.all fun e => !pred e := by
  cases o <;> rfl

lemma match_option_any (pred : HealthRec → Bool) (o : Option HealthRec) :
    (match o with
     | none => false
     | some e => !pred e) = o.any fun e => !pred e := by
  cases o <;> rfl

/-- C1. Membership characterization of the transition cohorts, for any
lifestyle predicate: the onset cohort holds exactly the after-records with
the predicate true whose id has no before-match or whose first before-match
has the predicate false (`Option.all` over the first match); the
discontinued cohort holds exactly the before-records with the predicate
true whose first after-match exists and has the predicate false
(`Option.any`); consequently every discontinued record's id occurs among
the after-records' ids — a before-record absent from `after` is never
discontinued. Matching uses `find?`, i.e. the first record with exactly
equal `employee_id`. The drink/smoke cohorts of the two pages are the
instances at `pred = drink` and `pred = smoke`. -/
theorem transitionCohort_spec (pred : HealthRec → Bool)
    (before after : List HealthRec) (r : HealthRec) :
    (r ∈ onsetCohort pred before after ↔
      r ∈ after ∧ pred r = true
        ∧ ((before.find? fun e => e.employee_id == r.employee_id).all
            fun e => !pred e) = true)
  ∧ (r ∈ dropCohort pred before after ↔
      r ∈ before ∧ pred r = true
        ∧ ((after.find? fun e => e.employee_id == r.employee_id).any
            fun e => !pred e) = true)
  ∧ ((dropCohort pred before after).all
        (fun q => after.any fun e => e.employee_id == q.employee_id)) = true
  ∧ newDrinkers before after = onsetCohort (fun d => d.drink) before after
  ∧ drinkQuitters before after = dropCohort (fun d => d.drink) before after
  ∧ newSmokers before after = onsetCohort (fun d => d.smoke) before after
  ∧ smokeQuitters before after = dropCohort (fun d => d.smoke) before after := by
  have honset : ∀ x : HealthRec, x ∈ onsetCohort pred before after ↔
      x ∈ after ∧ pred x = true
        ∧ ((before.find? fun e => e.employee_id == x.employee_id).all
            fun e => !pred e) = true := by
    intro x
    unfold onsetCohort
    rw [List.mem_filter, match_option_all, Bool.and_eq_true]
  have hdrop : ∀ x : HealthRec, x ∈ dropCohort pred before after ↔
      x ∈ before ∧ pred x = true
        ∧ ((after.find? fun e => e.employee_id == x.employee_id).any
            fun e => !pred e) = true := by
    intro x
    unfold dropCohort
    rw [List.mem_filter, match_option_any, Bool.and_eq_true]
  refine ⟨honset r, hdrop r, ?_, rfl, rfl, rfl, rfl⟩
  rw [List.all_eq_true]
  intro q hq
  rcases (hdrop q).mp hq with ⟨-, -, hany⟩
  cases hf : after.find? fun e => e.employee_id == q.employee_id with
  | none => rw [hf] at hany; exact absurd hany (by simp)
  | some w =>
    have hw : w ∈ after := List.mem_of_find?_eq_some hf
    have hwq := List.find?_some hf
    refine List.any_eq_true.mpr ⟨w, hw, ?_⟩
    simpa using hwq

/-- `rate` from `Drinking.tsx` / `Smoking.tsx`:
`const rate = (n, total) => total > 0 ? (n / total) * 100 : 0;`. -/
def rate (n total : ℕ) : ℚ :=
  if total > 0 then ((n : ℚ) / (total : ℚ)) * 100 else 0

/-- C4. For a predicate over a collection, the rate is bounded between 0
and 100, is exactly 0 on the empty collection (no NaN, no error — the
zero-denominator branch returns the number 0), and on a non-empty
collection equals (number of records satisfying the predicate) / size
× 100. -/
theorem rate_spec :
    (∀ (p : HealthRec → Bool) (l : List HealthRec),
        0 ≤ rate (l.filter p).length l.length
          ∧ rate (l.filter p).length l.length ≤ 100)
  ∧ (∀ p : HealthRec → Bool,
        rate (([] : List HealthRec).filter p).length ([] : List HealthRec).length = 0)
  ∧ (∀ (p : HealthRec → Bool) (x : HealthRec) (xs : List HealthRec),
        rate ((x :: xs).filter p).length (x :: xs).length
          = (((x :: xs).filter p).length : ℚ) / (((x :: xs).length : ℚ)) * 100) := by
  refine ⟨?_, fun p => rfl, ?_⟩
  · intro p l
    have hn : (l.filter p).length ≤ l.length := l.length_filter_le p
    unfold rate
    by_cases hl : l.length > 0
    · rw [if_pos hl]
      constructor
      · apply mul_nonneg
        · apply div_nonneg <;> positivity
        · norm_num
      · have h1 : ((l.filter p).length : ℚ) / (l.length : ℚ) ≤ 1 := by
          rw [div_le_one (by exact_mod_cast hl)]
          exact_mod_cast hn
        calc ((l.filter p).length : ℚ) / (l.length : ℚ) * 100
            ≤ 1 * 100 := by
              apply mul_le_mul_of_nonneg_right h1
              norm_num
          _ = 100 := by norm_num
    · rw [if_neg hl]
      norm_num
  · intro p x xs
    unfold rate
    rw [if_pos (by simp)]

/-- The body of `fetchAll`'s `while (true)` loop from `src/lib/supabase.ts`:

```
const PAGE_SIZE = 1000;
while (true) {
  const from = page * PAGE_SIZE; const to = from + PAGE_SIZE - 1;
  const { data, error } = await supabase.from(tableName).select('*').range(from, to);
  if (error) throw error;
  if (!data || data.length === 0) break;
  results.push(...data);
  if (data.length < PAGE_SIZE) break; // last page
  page++;
}
```

The store is modelled honestly: the request `range(1000·page, 1000·page+999)`
over a stable table `db` answers the page `(db.drop (1000·page)).take 1000`
unless the error schedule `errAt` injects an error for that page (a thrown
error becomes `Except.error`; the never-occurring `data: null` response
would behave as the empty page). `rest` is the still-unfetched suffix
`db.drop (1000·page)`, and the accumulated `results` of a run are the
concatenation of the returned pages in order. -/
def fetchAllGo {α ε : Type} (errAt : ℕ → Option ε) (page : ℕ) (rest : List α) :
    Except ε (List α) :=
  match errAt page with
  | some e => .error e
  | none =>
    if (rest.take 1000).length = 0 then .ok []
    else if (rest.take 1000).length < 1000 then .ok (rest.take 1000)
    else (fetchAllGo errAt (page + 1) (rest.drop 1000)).map fun tl => rest.take 1000 ++ tl
termination_by rest.length
decreasing_by
  simp only [List.length_drop, List.length_take] at *
  omega

/-- `fetchAll` from `src/lib/supabase.ts`, over the table contents `db` and
the store's error schedule `errAt`. -/
def fetchAll {α ε : Type} (errAt : ℕ → Option ε) (db : List α) : Except ε (List α) :=
  fetchAllGo errAt 0 db

lemma fetchAllGo_eq_err {α ε : Type} (errAt : ℕ → Option ε) (page : ℕ)
    (rest : List α) (e : ε) (h : errAt page = some e) :
    fetchAllGo errAt page rest = .error e := by
  unfold fetchAllGo
  rw [h]

lemma fetchAllGo_eq_none {α ε : Type} (errAt : ℕ → Option ε) (page : ℕ)
    (rest : List α) (h : errAt page = none) :
    fetchAllGo errAt page rest =
      (if (rest.take 1000).length = 0 then .ok []
       else if (rest.take 1000).length < 1000 then .ok (rest.take 1000)
       else (fetchAllGo errAt (page + 1) (rest.drop 1000)).map
              fun tl => rest.take 1000 ++ tl) := by
  conv_lhs => unfold fetchAllGo
  rw [h]

lemma fetchAllGo_ok {α ε : Type} :
    ∀ (n : ℕ) (rest : List α), rest.length ≤ n → ∀ page : ℕ,
      fetchAllGo (fun _ => (none : Option ε)) page rest = .ok rest := by
  intro n
  induction n with
  | zero =>
    intro rest h page
    have hnil : rest = [] := List.length_eq_zero.mp (Nat.le_zero.mp h)
    subst hnil
    rw [fetchAllGo_eq_none _ _ _ rfl]
    simp
  | succ n ih =>
    intro rest h page
    rw [fetchAllGo_eq_none _ _ _ rfl]
    by_cases h0 : (rest.take 1000).length = 0
    · rw [if_pos h0]
      have hnil : rest = [] := by
        rw [List.length_take] at h0
        exact List.length_eq_zero.mp (by omega)
      rw [hnil]
    · rw [if_neg h0]
      by_cases h1 : (rest.take 1000).length < 1000
      · rw [if_pos h1]
        have : rest.take 1000 = rest := by
          apply List.take_of_length_le
          rw [List.length_take] at h1
          omega
        rw [this]
      · rw [if_neg h1]
        have hge : 1000 ≤ rest.length := by
          rw [List.length_take] at h1
          omega
        rw [ih (rest.drop 1000) (by rw [List.length_drop]; omega) (page + 1)]
        show Except.ok (rest.take 1000 ++ rest.drop 1000) = Except.ok rest
        rw [List.take_append_drop]

lemma fetchAllGo_err {α ε : Type} (errAt : ℕ → Option ε) (e : ε) :
    ∀ (k page : ℕ) (rest : List α),
      (∀ q, page ≤ q → q < page + k → errAt q = none) →
      errAt (page + k) = some e → 1000 * k ≤ rest.length →
      fetchAllGo errAt page rest = .error e := by
  intro k
  induction k with
  | zero =>
    intro page rest _ herr _
    rw [Nat.add_zero] at herr
    exact fetchAllGo_eq_err errAt page rest e herr
  | succ k ih =>
    intro page rest hprev herr hlen
    rw [fetchAllGo_eq_none _ _ _ (hprev page (Nat.le_refl page) (by omega))]
    have hge : 1000 ≤ rest.length := by omega
    have h0 : ¬ (rest.take 1000).length = 0 := by
      rw [List.length_take]
      omega
    have h1 : ¬ (rest.take 1000).length < 1000 := by
      rw [List.length_take]
      omega
    rw [if_neg h0, if_neg h1]
    rw [ih (page + 1) (rest.drop 1000)
      (fun q hq1 hq2 => hprev q (by omega) (by omega))
      (by rw [show page + 1 + k = page + (k + 1) from by omega]; exact herr)
      (by rw [List.length_drop]; omega)]
    rfl

/-- C3. `fetchAll` retrieves the complete row set: over an error-free
store it returns exactly the whole table (the concatenation of all pages,
each beneath the fixed page size 1000, stopping at the first short page) no
matter the table's size; and if the store reports an error on any page the
loop actually requests (every earlier page full and error-free), the whole
fetch fails with that error instead of returning a partial result. -/
theorem fetchAll_spec {α ε : Type} (db : List α) (errAt : ℕ → Option ε) (p : ℕ) (e : ε)
    (hprev : ∀ q, q < p → errAt q = none)
    (herr : errAt p = some e)
    (hreach : 1000 * p ≤ db.length) :
    fetchAll (fun _ => (none : Option ε)) db = .ok db
  ∧ fetchAll errAt db = .error e := by
  constructor
  · exact fetchAllGo_ok db.length db (Nat.le_refl _) 0
  · exact fetchAllGo_err errAt e p 0 db (fun q _ hq => hprev q (by omega))
      (by rw [Nat.zero_add]; exact herr) hreach

/-- Witness for C3: a one-row table with the store failing on the very
first page — the error propagates; error-free, the fetch returns the row. -/
theorem fetchAll_spec_witness :
    (∀ q : ℕ, q < 0 → (fun _ => some 7) q = (none : Option ℕ))
  ∧ (fun _ : ℕ => some 7) 0 = some 7
  ∧ 1000 * 0 ≤ ([42] : List ℕ).length
  ∧ (fetchAll (fun _ => (none : Option ℕ)) ([42] : List ℕ) = .ok [42]
      ∧ fetchAll (fun _ => some 7) ([42] : List ℕ) = .error 7) :=
  ⟨fun q hq => absurd hq (Nat.not_lt_zero q), rfl, Nat.zero_le _,
    fetchAll_spec [42] (fun _ => some 7) 0 7
      (fun q hq => absurd hq (Nat.not_lt_zero q)) rfl (Nat.zero_le _)⟩

/-- Result of JS `parseFloat` / `parseInt`: a finite number, an infinity,
or `NaN`. -/
inductive ParseRes where
  | nan
  | inf (neg : Bool)
  | num (q : ℚ)
deriving DecidableEq

/-- ASCII decimal digit. -/
def jsIsDigit (c : Char) : Bool := 48 ≤ c.toNat && c.toNat ≤ 57

/-- ASCII hexadecimal digit. -/
def jsIsHexDigit (c : Char) : Bool :=
  jsIsDigit c || (97 ≤ c.toNat && c.toNat ≤ 102) || (65 ≤ c.toNat && c.toNat ≤ 70)

/-- Value of a string of decimal digits. -/
def digitsVal (ds : List Char) : ℕ :=
  ds.foldl (fun n c => 10 * n + (c.toNat - 48)) 0

/-- Value of one hexadecimal digit. -/
def hexDigitVal (c : Char) : ℕ :=
  if jsIsDigit c then c.toNat - 48
  else if 97 ≤ c.toNat then c.toNat - 87
  else c.toNat - 55

/-- Value of a string of hexadecimal digits. -/
def hexVal (ds : List Char) : ℕ :=
  ds.foldl (fun n c => 16 * n + hexDigitVal c) 0

/-- Consume an optional sign; `true` means negative. -/
def parseSign : List Char → Bool × List Char
  | '-' :: cs => (true, cs)
  | '+' :: cs => (false, cs)
  | cs => (false, cs)

/-- Value of the optional exponent part `e`/`E` `[+-]?digits` sitting at
the front of `cs` (`0` when no well-formed exponent follows — the longest
valid numeric-literal prefix then ends before the `e`). -/
def parseExpVal (cs : List Char) : ℤ :=
  match cs with
  | c :: cs1 =>
    if c = 'e' ∨ c = 'E' then
      let (neg, cs2) := parseSign cs1
      let ds := cs2.takeWhile jsIsDigit
      if ds.isEmpty then 0
      else if neg then -(digitsVal ds : ℤ) else (digitsVal ds : ℤ)
    else 0
  | [] => 0

/-- Model of JS `parseFloat` on the characters of the input string
(ECMA-262 `parseFloat`): skip leading whitespace, read an optional sign,
then the longest prefix that is a valid `StrDecimalLiteral`
(`Infinity`, `digits[.digits?]`, or `.digits`, each with an optional
exponent); `NaN` if there is none. The numeric value is exact (`ℚ`); the
IEEE rounding of the reference implementation is abstracted away, which
does not affect whether a parse fails. -/
def parseFloatChars (cs0 : List Char) : ParseRes :=
  let cs1 := cs0.dropWhile jsWhitespace
  let (neg, cs2) := parseSign cs1
  if "Infinity".data.isPrefixOf cs2 then .inf neg
  else
    let ds1 := cs2.takeWhile jsIsDigit
    let r1 := cs2.dropWhile jsIsDigit
    if ds1.isEmpty then
      match r1 with
      | '.' :: r2 =>
        let ds2 := r2.takeWhile jsIsDigit
        let r3 := r2.dropWhile jsIsDigit
        if ds2.isEmpty then .nan
        else
          let v := ((digitsVal ds2 : ℚ) / ((10 : ℚ) ^ ds2.length))
                     * (10 : ℚ) ^ (parseExpVal r3)
          .num (if neg then -v else v)
      | _ => .nan
    else
      match r1 with
      | '.' :: r2 =>
        let ds2 := r2.takeWhile jsIsDigit
        let r3 := r2.dropWhile jsIsDigit
        let v := ((digitsVal ds1 : ℚ) + (digitsVal ds2 : ℚ) / ((10 : ℚ) ^ ds2.length))
                   * (10 : ℚ) ^ (parseExpVal r3)
        .num (if neg then -v else v)
      | _ =>
        let v := (digitsVal ds1 : ℚ) * (10 : ℚ) ^ (parseExpVal r1)
        .num (if neg then -v else v)

/-- Model of JS `parseInt` with no radix argument (ECMA-262 `parseInt`):
skip leading whitespace, optional sign, `0x`/`0X` switches to hexadecimal,
otherwise the longest prefix of decimal digits; `NaN` when no digit
follows. -/
def parseIntChars (cs0 : List Char) : ParseRes :=
  let cs1 := cs0.dropWhile jsWhitespace
  let (neg, cs2) := parseSign cs1
  match cs2 with
  | '0' :: c :: rest =>
    if c = 'x' ∨ c = 'X' then
      let ds := rest.takeWhile jsIsHexDigit
      if ds.isEmpty then .nan
      else .num (if neg then -(hexVal ds : ℚ) else (hexVal ds : ℚ))
    else
      let ds := ('0' :: c :: rest).takeWhile jsIsDigit
      .num (if neg then -(digitsVal ds : ℚ) else (digitsVal ds : ℚ))
  | cs =>
    let ds := cs.takeWhile jsIsDigit
    if ds.isEmpty then .nan
    else .num (if neg then -(digitsVal ds : ℚ) else (digitsVal ds : ℚ))

/-- `parseFloat(value)` — the argument is first converted by `String(...)`. -/
def jsParseFloat (v : Value) : ParseRes := parseFloatChars (jsToString v).data

/-- `parseInt(value)` — the argument is first converted by `String(...)`. -/
def jsParseInt (v : Value) : ParseRes := parseIntChars (jsToString v).data

/-- Storage of `parseFloat(row[...])` through the upsert of
`scripts/import-data.ts`: supabase-js JSON-serializes the request body, and
`JSON.stringify` renders `NaN` and the infinities as `null`, so a cell
whose parse fails is stored as the SQL `NULL` sentinel — never `0`, and
without any exception. -/
def storedNum (v : Value) : Value :=
  match jsParseFloat v with
  | .num q => .vNum q
  | .nan => .vNull
  | .inf _ => .vNull

/-- Storage of `parseInt(row[...])` through the upsert, as `storedNum`. -/
def storedInt (v : Value) : Value :=
  match jsParseInt v with
  | .num q => .vNum q
  | .nan => .vNull
  | .inf _ => .vNull

/-- JS property access `row['X']`: `undefined` when the key is absent. -/
def rowGet (row : RawRow) (k : String) : Value :=
  (row.lookup k).getD .vUndef

example : jsParseFloat (.vStr "N/A") = .nan := by decide
example : ∃ q, jsParseFloat (.vStr " 12.5") = .num q := ⟨_, rfl⟩
example : ∃ q, jsParseFloat (.vStr "12abc") = .num q := ⟨_, rfl⟩
example : jsParseFloat (.vStr "") = .nan := by decide
example : jsParseFloat .vUndef = .nan := by decide
example : ∃ q, jsParseInt (.vStr "41") = .num q := ⟨_, rfl⟩
example : jsParseInt (.vStr "-") = .nan := by decide

/-- One imported row as built by `importHealthRecords` in
`scripts/import-data.ts` (field for field; each cell is the stored value
after JSON serialization of the upsert body). -/
structure ImportRec where
  hn : Value
  employee_id : Value
  full_name : Value
  department : Value
  position : Value
  branch : Value
  factory : Value
  function : Value
  sub_function : Value
  age : Value
  year_of_service : Value
  gender : Value
  year : Value
  bp_high : Value
  bp_low : Value
  weight : Value
  height : Value
  bmi : Value
  smoke : Value
  drink : Value
  bp_result : Value
  overall_result : Value
  cbc_result : Value
  ua_result : Value
  chest_xray : Value
  hearing_test : Value
  spirometry : Value
  vision_occupational : Value
  ekg : Value
  fbs : Value
  cholesterol : Value
  triglyceride : Value
  hdl : Value
  ldl : Value
  uric_acid : Value
  bun : Value
  creatinine : Value
  sgot : Value
  sgpt : Value
  hbs_ag : Value
  hbs_ab : Value
  amphetamine : Value
deriving DecidableEq

/-- The record builder of `data.map((row: any) => ({...}))` in
`importHealthRecords` (`scripts/import-data.ts`): numeric lab/vital fields
go through `parseFloat`, the integer identity fields through `parseInt`,
the lifestyle flags are the comparison `row[...] === 'ü'`, and the
remaining fields pass through. -/
def importHealthRecord (row : RawRow) : ImportRec where
  hn := storedInt (rowGet row "HN")
  employee_id := .vStr (jsToString (rowGet row "รหัส"))
  full_name := rowGet row "ชื่อ - นามสกุล"
  department := rowGet row "แผนก"
  position := rowGet row "ตำแหน่ง"
  branch := rowGet row "สาขา"
  factory := rowGet row "โรงงาน"
  function := rowGet row "Function"
  sub_function := rowGet row "Sub-Function"
  age := storedInt (rowGet row "Age")
  year_of_service := storedInt (rowGet row "Year of Service")
  gender := rowGet row "M or F"
  year := storedInt (rowGet row "Year")
  bp_high := storedNum (rowGet row "BP-H")
  bp_low := storedNum (rowGet row "BP-L")
  weight := storedNum (rowGet row "น้ำหนัก")
  height := storedNum (rowGet row "ส่วนสูง")
  bmi := storedNum (rowGet row "BMI")
  smoke := .vBool (rowGet row "SMOKE" = Value.vStr "ü")
  drink := .vBool (rowGet row "DRINK" = Value.vStr "ü")
  bp_result := rowGet row "สรุปผลความดัน"
  overall_result := rowGet row "ผลการตรวจ"
  cbc_result := rowGet row "Complete Blood Count"
  ua_result := rowGet row "Urine Analysis"
  chest_xray := rowGet row "เอ็กซเรย์ทรวงอก"
  hearing_test := rowGet row "สมรรถภาพการได้ยิน"
  spirometry := rowGet row "สมรรถภาพความจุปอด"
  vision_occupational := rowGet row "สมรรถภาพสายตาอาชีวอนามัย"
  ekg := rowGet row "คลื่นไฟฟ้าหัวใจ"
  fbs := storedNum (rowGet row "FBS 70-110 mg%")
  cholesterol := storedNum (rowGet row "Cholesterol 0-200 mg%")
  triglyceride := storedNum (rowGet row "Triglyceride 30-150 mg%")
  hdl := storedNum (rowGet row "HDL >35 mg/dl")
  ldl := storedNum (rowGet row "LDL <=130 mg/dl")
  uric_acid := storedNum (rowGet row "Uric Acid 2.4-7.0 mg%")
  bun := storedNum (rowGet row "B.U.N")
  creatinine := storedNum (rowGet row "Creatinine")
  sgot := storedNum (rowGet row "SGOT")
  sgpt := storedNum (rowGet row "SGPT")
  hbs_ag := rowGet row "HBs Ag"
  hbs_ab := rowGet row "HBs Ab"
  amphetamine := rowGet row "Amphetamine (Negative)"

/-- `const records = data.map((row: any) => ({...}))`. -/
def importHealthRecords (rows : List RawRow) : List ImportRec :=
  rows.map importHealthRecord

/-- Supporting development (the only numeric parsing in the repository):
in the standalone import script a cell goes through `parseFloat` and the
JSON-serialized upsert, so its stored value is either a parsed number or
`null` (totality), a failing cell is stored as `null` and differs from
every number (in particular from `0`), and the import maps one output
record per input record whatever cells are malformed. Note the script
writes to the `health_records` table, which no dashboard page reads — the
loaded `health_<year>` datasets never pass through this code (see the C2
theorems below). -/
theorem importNumeric_spec (v : Value) (rows : List RawRow)
    (hfail : jsParseFloat v = ParseRes.nan) :
    storedNum v = Value.vNull
  ∧ (∀ q : ℚ, ¬ storedNum v = Value.vNum q)
  ∧ (∀ w : Value, storedNum w = Value.vNull ∨ ∃ q : ℚ, storedNum w = Value.vNum q)
  ∧ (importHealthRecords rows).length = rows.length
  ∧ (importHealthRecord [("BMI", Value.vStr "abc")]).bmi = Value.vNull := by
  have hnull : storedNum v = Value.vNull := by
    unfold storedNum
    rw [hfail]
  refine ⟨hnull, ?_, ?_, by simp [importHealthRecords], by decide⟩
  · intro q h
    rw [hnull] at h
    exact Value.noConfusion h
  · intro w
    unfold storedNum
    cases jsParseFloat w with
    | nan => exact Or.inl rfl
    | inf s => exact Or.inl rfl
    | num q => exact Or.inr ⟨q, rfl⟩

/-- Concrete run of `importNumeric_spec`: the cell `"N/A"` fails to parse,
is stored as `null`, and the import of a row holding it still succeeds. -/
theorem importNumeric_spec_witness :
    jsParseFloat (Value.vStr "N/A") = ParseRes.nan
  ∧ (storedNum (Value.vStr "N/A") = Value.vNull
      ∧ (∀ q : ℚ, ¬ storedNum (Value.vStr "N/A") = Value.vNum q)
      ∧ (∀ w : Value, storedNum w = Value.vNull ∨ ∃ q : ℚ, storedNum w = Value.vNum q)
      ∧ (importHealthRecords [[("BMI", Value.vStr "abc")]]).length
          = [[("BMI", Value.vStr "abc")]].length
      ∧ (importHealthRecord [("BMI", Value.vStr "abc")]).bmi = Value.vNull) :=
  ⟨by decide, importNumeric_spec (Value.vStr "N/A") [[("BMI", Value.vStr "abc")]] (by decide)⟩

/-- C2. The claim as stated fails on the year-dataset load path: the
`health_<year>` tables are populated by `Upload.tsx`
(`parseCSV → normalizeData → upsert`) and read back through
`normalizeData`, and `normalizeData` performs no numeric conversion — a
raw `BMI` cell `"abc"` that fails to parse as a number is loaded as the
raw string, not as the `null` missing sentinel the claim requires (and not
as a number either). -/
theorem loadedNumeric_claim_counterexample :
    normalizeData [[("BMI", Value.vStr "abc")]] = [[("bmi", Value.vStr "abc")]]
  ∧ ¬ (normalizeRecord [("BMI", Value.vStr "abc")]).lookup "bmi" = some Value.vNull
  ∧ ¬ (normalizeRecord [("BMI", Value.vStr "abc")]).lookup "bmi"
      = some (Value.vNum 0) := by
  decide

/-- C2 (amended). On the year-dataset load path no numeric parsing
happens: `normalizeData` passes every cell that is not a lifestyle flag
and not the checkmark glyph through completely unchanged — a numeric cell,
well-formed or malformed, is loaded as its raw source value (so it never
becomes zero and never raises an exception), and the load emits one record
per input row regardless of cell contents. Numeric typing exists only
outside this path, in the standalone import script (`importNumeric_spec`
above) and the database's own column coercion. -/
theorem loadedNumeric_passthrough (ek : String) (v : Value) (rows : List RawRow)
    (hek : ¬ (ek = "drink" ∨ ek = "smoke")) (hv : ¬ v = Value.vStr "ü") :
    transformVal ek v = v
  ∧ (normalizeData rows).length = rows.length
  ∧ (normalizeRecord [("BMI", Value.vStr "12.5")]).lookup "bmi"
      = some (Value.vStr "12.5") := by
  refine ⟨?_, by simp [normalizeData], by decide⟩
  unfold transformVal
  rw [if_neg hek, if_neg hv]

/-- Witness for the amended C2: the canonical key `bmi` is no lifestyle
flag and `"12.5"` is not the checkmark glyph; the cell passes through the
load unchanged. -/
theorem loadedNumeric_passthrough_witness :
    ¬ ("bmi" = "drink" ∨ "bmi" = "smoke")
  ∧ ¬ Value.vStr "12.5" = Value.vStr "ü"
  ∧ (transformVal "bmi" (Value.vStr "12.5") = Value.vStr "12.5"
      ∧ (normalizeData [[("BMI", Value.vStr "12.5")]]).length
          = [[("BMI", Value.vStr "12.5")]].length
      ∧ (normalizeRecord [("BMI", Value.vStr "12.5")]).lookup "bmi"
          = some (Value.vStr "12.5")) :=
  ⟨by decide, by decide,
    loadedNumeric_passthrough "bmi" (Value.vStr "12.5")
      [[("BMI", Value.vStr "12.5")]] (by decide) (by decide)⟩
